import Mathlib

/-!
Shallow embedding of the offline-first synchronization core of the kiosk
point-of-sale application (Angular front-end).

The embedding covers:
* `SyncService` (src/src/app/core/services/sync.service.ts): the sync engine
  with its pending queue (`sync-queue`), failed queue (`failed-sync-queue`),
  queue-processing algorithm, error classification and placeholder
  reconciliation after successful offline creations;
* `ApiStatusService` (src/src/app/core/services/upload.service.ts, second
  unit in that file): the connectivity monitor probe `checkNow`.

The durable IndexedDB store is modelled as explicit lists in a `Db` state;
HTTP outcomes are supplied by an oracle function from requests to results.
RxJS sequential composition (`concatMap` chains) is modelled by explicit
state threading; the trigger/rerun discipline of `processQueue` is modelled
as a small-step machine.
-/

namespace Kiosk

/-- HTTP methods used by queued requests (sync.service.ts `QueuedRequest`). -/
inductive Method
  | POST
  | PUT
  | DELETE
  | PATCH
deriving DecidableEq, Repr

/-- JavaScript value for the identifier-bearing fields of server responses:
a number, a string, or NaN (result of `Number` on a non-numeric string). -/
inductive JVal
  | num (n : Int)
  | str (s : String)
  | nan
deriving DecidableEq, Repr

/-- Substring test on character lists, used to model JavaScript
`String.prototype.includes`. -/
def charsContain (pat : List Char) : List Char → Bool
  | [] => pat.isEmpty
  | c :: rest => pat.isPrefixOf (c :: rest) || charsContain pat rest

/-- Model of JavaScript `url.includes(pat)`. -/
def strIncludes (s pat : String) : Bool :=
  charsContain pat.toList s.toList

/-- JavaScript whitespace ignored by `Number`. -/
def isJsSpace (c : Char) : Bool :=
  c = ' ' || c = '\t' || c = '\n' || c = '\r'

/-- Drop leading JavaScript whitespace. -/
def dropLeadingSpaces : List Char → List Char
  | [] => []
  | c :: r => if isJsSpace c then dropLeadingSpaces r else c :: r

/-- Trim JavaScript whitespace from both ends. -/
def trimChars (cs : List Char) : List Char :=
  (dropLeadingSpaces ((dropLeadingSpaces cs).reverse)).reverse

/-- Decimal digit test. -/
def isDigitChar (c : Char) : Bool :=
  ('0' ≤ c) && (c ≤ '9')

/-- Accumulate a decimal number; `none` as soon as a non-digit appears. -/
def parseDigitsAux (acc : Nat) : List Char → Option Nat
  | [] => some acc
  | c :: r =>
      if isDigitChar c then parseDigitsAux (acc * 10 + (c.toNat - 48)) r
      else none

/-- Parse a non-empty all-digit character list as a decimal number. -/
def parseDigits : List Char → Option Nat
  | [] => none
  | c :: r => parseDigitsAux 0 (c :: r)

/-- Model of JavaScript `Number(s)` on the integer-valued strings that appear
as trailing URL id segments: whitespace is trimmed, the empty remainder
converts to 0, an optionally signed decimal integer converts to its value,
anything else is NaN (`none`). -/
def jsNumberOfString (s : String) : Option Int :=
  match trimChars s.data with
  | [] => some 0
  | '+' :: rest => (parseDigits rest).map Int.ofNat
  | '-' :: rest => (parseDigits rest).map (fun n => -(Int.ofNat n))
  | cs => (parseDigits cs).map Int.ofNat

/-- The segment after the last slash, modelling the JavaScript idiom
`url.split('/').pop()` (the whole string when no slash occurs, the empty
string when the url ends in a slash). -/
def lastSegmentAux (cur : List Char) : List Char → List Char
  | [] => cur
  | c :: rest =>
      if c = '/' then lastSegmentAux [] rest
      else lastSegmentAux (cur ++ [c]) rest

/-- String form of the trailing URL segment. -/
def lastUrlSegment (s : String) : String :=
  String.mk (lastSegmentAux [] s.data)

/-- ASCII lowercase conversion of one character, modelling the effect of
JavaScript `toLowerCase` on the URL strings the engine inspects. -/
def jsToLower (c : Char) : Char :=
  if ('A' ≤ c) && (c ≤ 'Z') then Char.ofNat (c.toNat + 32) else c

/-- Model of `url.toLowerCase()`. -/
def strToLower (s : String) : String :=
  String.mk (s.data.map jsToLower)

/-- JavaScript `Number` applied to a string, as a `JVal` (NaN when the string
does not denote an integer). -/
def jsNumberToVal (s : String) : JVal :=
  match jsNumberOfString s with
  | some n => JVal.num n
  | none => JVal.nan

/-- Model of the nullish-coalescing operator `a ?? b`. -/
def jsCoalesce (a b : Option JVal) : Option JVal :=
  match a with
  | some v => some v
  | none => b

/-- Opaque content of a sales-order line item; the normalization code moves
item lists around without inspecting the items. -/
abbrev Item := Nat

/-- JSON object shape covering local records and server responses for the
record stores. The named fields are the ones the sync engine reads or writes
(`id` is the store key path; `order_id`/`orderId`/`orderItems`/`order_items`
drive the sales normalization); `extra` stands for all remaining properties,
which are carried along unchanged by object spread. -/
structure JRecord where
  id : Option JVal := none
  order_id : Option JVal := none
  orderId : Option JVal := none
  orderItems : Option (List Item) := none
  order_items : Option (List Item) := none
  extra : Nat := 0
deriving DecidableEq, Repr

/-- Opaque mutation payload; the sync engine only reads `tempId` from it
(`req.payload?.tempId`), everything else is carried opaquely as `body`. -/
structure Payload where
  tempId : Option Int := none
  body : Nat := 0
deriving DecidableEq, Repr

/-- A pending mutation awaiting execution (sync.service.ts `QueuedRequest`);
`id` is the IndexedDB key, absent until the request is persisted. -/
structure QueuedRequest where
  id : Option Int := none
  url : String
  method : Method
  payload : Payload
deriving DecidableEq, Repr

/-- A parked failed mutation (sync.service.ts `FailedRequest`): a
`QueuedRequest` plus a human-readable error and the failure time. -/
structure FailedRequest where
  id : Option Int := none
  url : String
  method : Method
  payload : Payload
  error : String
  timestamp : Nat
deriving DecidableEq, Repr

/-- The four local record collections the reconciliation step can target. -/
inductive StoreName
  | products
  | customers
  | sales
  | purchases
deriving DecidableEq, Repr

/-- The durable local store: the two queue collections plus the four record
collections. `nextQueueKey` models the IndexedDB key generator of
`sync-queue` (records added without a key receive fresh increasing keys). -/
structure Db where
  syncQueue : List QueuedRequest := []
  failedQueue : List FailedRequest := []
  nextQueueKey : Int := 1
  products : List JRecord := []
  customers : List JRecord := []
  sales : List JRecord := []
  purchases : List JRecord := []
deriving DecidableEq, Repr

/-- Contents of one record collection. -/
def Db.store (db : Db) : StoreName → List JRecord
  | StoreName.products => db.products
  | StoreName.customers => db.customers
  | StoreName.sales => db.sales
  | StoreName.purchases => db.purchases

/-- Replace the contents of one record collection. -/
def Db.setStore (db : Db) (s : StoreName) (l : List JRecord) : Db :=
  match s with
  | StoreName.products => { db with products := l }
  | StoreName.customers => { db with customers := l }
  | StoreName.sales => { db with sales := l }
  | StoreName.purchases => { db with purchases := l }

/-- Whether a record is stored under numeric key `k` (the stores use `id` as
key path). -/
def recordHasKey (k : Int) (r : JRecord) : Bool :=
  r.id == some (JVal.num k)

/-- Model of `dbService.getByID(storeName, key)`. -/
def Db.getByIdStore (db : Db) (s : StoreName) (k : Int) : Option JRecord :=
  (db.store s).find? (recordHasKey k)

/-- Model of `dbService.delete(storeName, key)` on a record collection. -/
def Db.deleteFromStore (db : Db) (s : StoreName) (k : Int) : Db :=
  db.setStore s ((db.store s).filter (fun r => !recordHasKey k r))

/-- Model of `dbService.add(storeName, record)` on a record collection. -/
def Db.addToStore (db : Db) (s : StoreName) (r : JRecord) : Db :=
  db.setStore s (db.store s ++ [r])

/-- Model of `dbService.add('sync-queue', request)`: the store assigns the
next generated key to the stored request. -/
def Db.addToSyncQueue (db : Db) (req : QueuedRequest) : Db :=
  { db with
      syncQueue := db.syncQueue ++ [{ req with id := some db.nextQueueKey }],
      nextQueueKey := db.nextQueueKey + 1 }

/-- Model of `dbService.delete('sync-queue', key)`. -/
def Db.deleteFromSyncQueue (db : Db) (k : Int) : Db :=
  { db with syncQueue := db.syncQueue.filter (fun q => !(q.id == some k)) }

/-- Model of `dbService.add('failed-sync-queue', failedRequest)`: the stored
record carries the key it already holds (spread of the originating request). -/
def Db.addToFailedQueue (db : Db) (fr : FailedRequest) : Db :=
  { db with failedQueue := db.failedQueue ++ [fr] }

/-- Model of `dbService.delete('failed-sync-queue', key)`. -/
def Db.deleteFromFailedQueue (db : Db) (k : Int) : Db :=
  { db with failedQueue := db.failedQueue.filter (fun f => !(f.id == some k)) }

/-- Error object delivered on the RxJS error channel: HTTP status (absent for
non-HTTP failures) and optional message, as read by `handleSyncError`. -/
structure HttpError where
  status : Option Int := none
  message : Option String := none
deriving DecidableEq, Repr

/-- Outcome of one HTTP request: a response object on the success channel, or
an `HttpError` on the error channel. In Angular's HttpClient any non-2xx
status arrives on the error channel with that status; status 0 means no
response was received at all (transport failure). -/
inductive HttpResult
  | success (response : JRecord)
  | failure (err : HttpError)
deriving DecidableEq, Repr

/-- Model of `err?.message || 'An unknown error occurred during sync.'`
(JavaScript `||`: absent or empty message falls back to the default). -/
def errorMessageOrDefault (m : Option String) : String :=
  match m with
  | some s => if s.isEmpty then "An unknown error occurred during sync." else s
  | none => "An unknown error occurred during sync."

/-- The `const failedRequest = { ...req, error: ..., timestamp: ... }` built
by `handleSyncError` before a request is parked in the failed collection. -/
def failedRequestOf (req : QueuedRequest) (err : HttpError) (now : Nat) :
    FailedRequest :=
  { id := req.id, url := req.url, method := req.method,
    payload := req.payload,
    error := errorMessageOrDefault err.message, timestamp := now }

/-- Result of handling one queued request inside a processing run:
`skipped` = the request was not executed (falsy id guard), `continued` = the
inner observable completed and the run moves to the next item, `aborted` =
the error was rethrown, tearing down the whole `concatMap` chain. -/
inductive SyncStepResult
  | skipped (db : Db)
  | continued (db : Db)
  | aborted (db : Db)
deriving DecidableEq, Repr

/-- The database state after a step, regardless of how the step ended. -/
def SyncStepResult.db : SyncStepResult → Db
  | SyncStepResult.skipped db => db
  | SyncStepResult.continued db => db
  | SyncStepResult.aborted db => db

/-- Model of `SyncService.handleSyncError` (sync.service.ts lines 483-533):
status 0 and 5xx rethrow (abort the run, queue untouched); 404 deletes the
stale local record for PUT/PATCH (store inferred from the raw URL, key parsed
from the trailing URL segment) and discards the queue entry; any other error
moves the request to the failed queue and discards the queue entry. -/
def handleSyncError (req : QueuedRequest) (err : HttpError) (db : Db)
    (now : Nat) : SyncStepResult :=
  if err.status == some 0 then
    SyncStepResult.aborted db
  else if (match err.status with | some s => decide (500 ≤ s) | none => false) then
    SyncStepResult.aborted db
  else if err.status == some 404 then
    SyncStepResult.continued
      ((if req.method == Method.PUT || req.method == Method.PATCH then
          match jsNumberOfString (lastUrlSegment req.url) with
          | some k =>
              db.deleteFromStore
                (if strIncludes req.url "products" then StoreName.products
                 else StoreName.customers) k
          | none => db
        else db).deleteFromSyncQueue (req.id.getD 0))
  else
    SyncStepResult.continued
      ((db.addToFailedQueue (failedRequestOf req err now)).deleteFromSyncQueue
        (req.id.getD 0))

/-- Model of `SyncService.normalizeServerRecordForStore` (sync.service.ts
lines 548-574). For the sales store the server's SalesOrder DTO is reshaped
for the local key path: `id` is taken from `order_id ?? orderId ?? id`
(converted with `Number` when it is a string), `order_id` is kept or filled,
`orderItems` is renamed to `order_items` when only the former is present, and
the `orderItems` property is then removed. Other stores pass through
unchanged. Responses reaching this function are JSON objects, so the
source's identity guard on a null response is not modelled separately. -/
def normalizeServerRecordForStore (storeName : StoreName)
    (serverResponse : JRecord) : JRecord :=
  if storeName == StoreName.sales then
    let orderId : Option JVal :=
      jsCoalesce serverResponse.order_id
        (jsCoalesce serverResponse.orderId serverResponse.id)
    let newId : Option JVal :=
      match orderId with
      | some (JVal.str s) => some (jsNumberToVal s)
      | v => v
    let normalized0 : JRecord :=
      { serverResponse with
          id := newId,
          order_id := jsCoalesce serverResponse.order_id orderId }
    let normalized1 : JRecord :=
      if serverResponse.orderItems.isSome && !serverResponse.order_items.isSome
      then { normalized0 with order_items := serverResponse.orderItems }
      else normalized0
    { normalized1 with orderItems := none }
  else serverResponse

/-- Model of `SyncService.handleSuccessfulPost` (sync.service.ts lines
535-546): look the placeholder up by its temporary key; when present, delete
it and add the normalized server record; when absent, discard the response. -/
def handleSuccessfulPost (storeName : StoreName) (tempId : Int)
    (serverResponse : JRecord) (db : Db) : Db :=
  match db.getByIdStore storeName tempId with
  | some _ =>
      (db.deleteFromStore storeName tempId).addToStore storeName
        (normalizeServerRecordForStore storeName serverResponse)
  | none => db

/-- Resource-store inference from the lowercased request URL, as in
`SyncService.executeRequest` (sync.service.ts lines 463-474). -/
def storeNameForUrl (url : String) : Option StoreName :=
  let urlLower := strToLower url
  if strIncludes urlLower "products" then some StoreName.products
  else if strIncludes urlLower "customers" then some StoreName.customers
  else if strIncludes urlLower "sales" then some StoreName.sales
  else if strIncludes urlLower "purchases" then some StoreName.purchases
  else none

/-- JavaScript truthiness of `req.payload?.tempId`: an absent or zero
temp id does not trigger reconciliation. -/
def truthyTempId : Option Int → Option Int
  | some n => if n == 0 then none else some n
  | none => none

/-- Result of `executeRequest`: the database after the success tap, or the
error delivered on the error channel. -/
inductive ExecResult
  | ok (db : Db)
  | err (e : HttpError)
deriving DecidableEq, Repr

/-- Model of `SyncService.executeRequest` (sync.service.ts lines 458-481):
perform the HTTP request; on success, when the request is a POST whose
payload carries a truthy `tempId` and whose URL names a known resource,
reconcile the local placeholder with the server response. -/
def executeRequest (req : QueuedRequest) (outcome : HttpResult) (db : Db) :
    ExecResult :=
  match outcome with
  | HttpResult.failure e => ExecResult.err e
  | HttpResult.success response =>
    if req.method == Method.POST then
      match truthyTempId req.payload.tempId with
      | some t =>
        match storeNameForUrl req.url with
        | some s => ExecResult.ok (handleSuccessfulPost s t response db)
        | none => ExecResult.ok db
      | none => ExecResult.ok db
    else ExecResult.ok db

/-- JavaScript falsiness of `req.id` (`!req.id`): absent or zero. -/
def jsFalsyId : Option Int → Bool
  | none => true
  | some n => n == 0

/-- Model of `SyncService.syncSingleRequest` (sync.service.ts lines 436-456):
skip requests whose stored key is falsy; otherwise execute, on success delete
the queue entry, on error classify via `handleSyncError`. -/
def syncSingleRequest (req : QueuedRequest) (outcome : HttpResult) (db : Db)
    (now : Nat) : SyncStepResult :=
  if jsFalsyId req.id then SyncStepResult.skipped db
  else
    match executeRequest req outcome db with
    | ExecResult.ok db1 =>
        SyncStepResult.continued (db1.deleteFromSyncQueue (req.id.getD 0))
    | ExecResult.err e => handleSyncError req e db now

/-- Observable outcome of one queue-processing run over a snapshot: the final
database, the requests actually executed against the API in execution order,
and whether the run was aborted by a rethrown error. -/
structure RunOutcome where
  db : Db
  trace : List QueuedRequest
  aborted : Bool
deriving DecidableEq, Repr

/-- Model of the `concatMap` chain of `SyncService.processQueueOnce`
(sync.service.ts lines 423-434) over a snapshot list: each request is handled
to completion before the next begins; a rethrown error tears the chain down,
leaving the remaining snapshot items unprocessed. `api` is the HTTP oracle
and `now` the failure timestamp clock. -/
def runRequests (api : QueuedRequest → HttpResult) (now : Nat) :
    List QueuedRequest → Db → RunOutcome
  | [], db => { db := db, trace := [], aborted := false }
  | r :: rest, db =>
    match syncSingleRequest r (api r) db now with
    | SyncStepResult.skipped db1 =>
        let o := runRequests api now rest db1
        { db := o.db, trace := o.trace, aborted := o.aborted }
    | SyncStepResult.continued db1 =>
        let o := runRequests api now rest db1
        { db := o.db, trace := r :: o.trace, aborted := o.aborted }
    | SyncStepResult.aborted db1 =>
        { db := db1, trace := [r], aborted := true }

/-- Model of `SyncService.processQueueOnce`: read the snapshot of the pending
collection and run it sequentially. -/
def processQueueOnce (api : QueuedRequest → HttpResult) (now : Nat) (db : Db) :
    RunOutcome :=
  runRequests api now db.syncQueue db

/-- Model of `SyncService.enqueueRequest`: persist the request to the pending
collection (the store assigns the key). -/
def enqueueRequest (request : QueuedRequest) (db : Db) : Db :=
  db.addToSyncQueue request

/-- Model of `SyncService.addToQueue` (sync.service.ts lines 351-368): when
the API is reachable, execute immediately and enqueue only on failure; when
unreachable, enqueue without attempting execution. -/
def addToQueue (request : QueuedRequest) (online : Bool)
    (api : QueuedRequest → HttpResult) (db : Db) : Db :=
  if online then
    match executeRequest request (api request) db with
    | ExecResult.ok db1 => db1
    | ExecResult.err _ => enqueueRequest request db
  else enqueueRequest request db

/-- Model of `SyncService.retryFailedRequest` (sync.service.ts lines
590-594): re-enqueue the failed item's url/method/payload via `addToQueue`,
then delete the item from the failed collection. -/
def retryFailedRequest (request : FailedRequest) (online : Bool)
    (api : QueuedRequest → HttpResult) (db : Db) : Db :=
  let db1 := addToQueue
    { id := none, url := request.url, method := request.method,
      payload := request.payload } online api db
  db1.deleteFromFailedQueue (request.id.getD 0)

/-- Modelled from the spec (refinement reference for `retryFailedRequest`):
the two-step program "remove the item from the failed collection, then
perform a fresh `addToQueue` call with the same url, method and payload". -/
def retryFailedRequestSpecProgram (request : FailedRequest) (online : Bool)
    (api : QueuedRequest → HttpResult) (db : Db) : Db :=
  let db1 := db.deleteFromFailedQueue (request.id.getD 0)
  addToQueue
    { id := none, url := request.url, method := request.method,
      payload := request.payload } online api db1

/-- Outcome of the reachability probe issued by `ApiStatusService.checkNow`:
a response on the success channel (2xx), or an `HttpErrorResponse` carrying
the server status (4xx/5xx), with status 0 meaning no response was received. -/
inductive ProbeResult
  | ok
  | httpError (status : Int)
deriving DecidableEq, Repr

/-- What one `checkNow` call did: whether an HTTP probe was issued, and the
reachability value pushed to the internal state and returned. -/
structure CheckResult where
  probed : Bool
  reported : Bool
deriving DecidableEq, Repr

/-- Model of `ApiStatusService.checkNow` (upload.service.ts second unit,
lines 90-115): if the browser reports the interface offline, report false
without probing; otherwise probe, report true on any response, and on the
error channel report true exactly when the status differs from 0. -/
def checkNow (navigatorOnline : Bool) (probe : ProbeResult) : CheckResult :=
  if !navigatorOnline then { probed := false, reported := false }
  else
    match probe with
    | ProbeResult.ok => { probed := true, reported := true }
    | ProbeResult.httpError s => { probed := true, reported := decide (s ≠ 0) }

/-- Processing status of the sync engine: idle, or inside a run with the
still-unprocessed suffix of the snapshot. `running` corresponds to
`isProcessingQueue = true` in the source. -/
inductive QueuePhase
  | idle
  | running (remaining : List QueuedRequest)
deriving DecidableEq, Repr

/-- State of the sync engine's trigger discipline: reachability flag, the
processing phase, the `queueProcessRequestedWhileRunning` rerun flag, the
durable store, the trace of requests executed so far (in execution order),
and the clock used for failure timestamps. -/
structure EngineState where
  online : Bool
  phase : QueuePhase
  rerun : Bool
  db : Db
  trace : List QueuedRequest
  now : Nat
deriving DecidableEq, Repr

/-- Model of a call to `SyncService.processQueue` (sync.service.ts lines
396-421): offline triggers do nothing; a trigger during an active run only
sets the rerun flag; an idle trigger starts a run over the current snapshot
of the pending collection, clearing the rerun flag. -/
def triggerProcessQueue (s : EngineState) : EngineState :=
  if !s.online then s
  else
    match s.phase with
    | QueuePhase.running _ => { s with rerun := true }
    | QueuePhase.idle =>
        { s with phase := QueuePhase.running s.db.syncQueue, rerun := false }

/-- Model of the `finalize` block of `processQueue`: clear the processing
flag, and when a rerun was requested while the engine is still online, start
the follow-up run immediately over a fresh snapshot. -/
def finishRun (s : EngineState) : EngineState :=
  if s.rerun && s.online then
    { s with phase := QueuePhase.running s.db.syncQueue, rerun := false }
  else { s with phase := QueuePhase.idle }

/-- One scheduler step of an active run: handle the next snapshot item via
`syncSingleRequest` (appending it to the trace when it was executed), or
finish the run when the snapshot is exhausted or the chain was torn down by a
rethrown error. Idle states are unaffected. Each step handles one request to
completion, which is exactly the guarantee `concatMap` provides. -/
def stepRun (api : QueuedRequest → HttpResult) (s : EngineState) :
    EngineState :=
  match s.phase with
  | QueuePhase.idle => s
  | QueuePhase.running [] => finishRun s
  | QueuePhase.running (r :: rest) =>
    match syncSingleRequest r (api r) s.db s.now with
    | SyncStepResult.skipped db1 =>
        { s with phase := QueuePhase.running rest, db := db1 }
    | SyncStepResult.continued db1 =>
        { s with phase := QueuePhase.running rest, db := db1,
                 trace := s.trace ++ [r] }
    | SyncStepResult.aborted db1 =>
        finishRun { s with db := db1, trace := s.trace ++ [r] }

/-- Iterated scheduler steps. -/
def iterateStep (api : QueuedRequest → HttpResult) : Nat → EngineState →
    EngineState
  | 0, s => s
  | n + 1, s => iterateStep api n (stepRun api s)

/-! Concrete fixtures used by the witness theorems below. -/

/-- Oracle of an API answering every request with an empty success body. -/
def apiOkW : QueuedRequest → HttpResult := fun _ => HttpResult.success {}

/-- Oracle of an unreachable API (status 0, no response received). -/
def apiDownW : QueuedRequest → HttpResult :=
  fun _ => HttpResult.failure { status := some 0 }

/-- Oracle of an API rejecting every request with a 400 validation error. -/
def api400W : QueuedRequest → HttpResult :=
  fun _ => HttpResult.failure { status := some 400, message := some "Bad Request" }

/-- Fixture queued request with stored key 1. -/
def reqW1 : QueuedRequest :=
  { id := some 1, url := "/products/9", method := Method.POST, payload := {} }

/-- Fixture queued request with stored key 2. -/
def reqW2 : QueuedRequest :=
  { id := some 2, url := "/customers/7", method := Method.PUT, payload := {} }

/-- Fixture database holding the two fixture requests in the pending queue. -/
def dbW : Db := { syncQueue := [reqW1, reqW2] }

/-- Fixture queued DELETE addressing customer 7. -/
def reqDel7 : QueuedRequest :=
  { id := some 1, url := "/customers/7", method := Method.DELETE, payload := {} }

/-- Fixture local customer record stored under key 7. -/
def custRec7 : JRecord := { id := some (JVal.num 7) }

/-- Fixture 404 error response. -/
def err404W : HttpError := { status := some 404, message := none }

/-- Fixture database with the DELETE request queued and customer 7 cached. -/
def dbDel7 : Db := { syncQueue := [reqDel7], customers := [custRec7] }

/-- Fixture database with the fixture PUT queued and customer 7 cached. -/
def dbPut7 : Db := { syncQueue := [reqW2], customers := [custRec7] }

/-- Fixture queued PUT addressing sales order 501 (the URL shape
`SalesService` enqueues for status updates). -/
def reqPutSale : QueuedRequest :=
  { id := some 3, url := "/api/SalesOrder/501", method := Method.PUT,
    payload := {} }

/-- Fixture local record stored under key 501. -/
def recK501 : JRecord := { id := some (JVal.num 501) }

/-- Fixture database with the sales PUT queued, sales order 501 cached, and
an unrelated customers record that happens to share key 501. -/
def dbSale501 : Db :=
  { syncQueue := [reqPutSale], customers := [recK501], sales := [recK501] }

/-- Fixture offline-created sales POST carrying temp id -3. -/
def reqPostW : QueuedRequest :=
  { id := some 1, url := "/SalesOrder", method := Method.POST,
    payload := { tempId := some (-3) } }

/-- Fixture server response to the sales creation: SalesOrder DTO shape. -/
def respW : JRecord :=
  { order_id := some (JVal.num 501), orderItems := some [11, 22] }

/-- Fixture database caching the temp-keyed sales placeholder. -/
def dbSalesW : Db := { sales := [{ id := some (JVal.num (-3)) }] }

/-- Oracle answering every request with the fixture sales response. -/
def apiSalesW : QueuedRequest → HttpResult :=
  fun _ => HttpResult.success respW

/-- Fixture engine state: online, mid-run with one snapshot item left. -/
def engW : EngineState :=
  { online := true, phase := QueuePhase.running [reqW1], rerun := false,
    db := dbW, trace := [], now := 0 }

/-! Helper lemmas about the store model. -/

theorem setStore_syncQueue (db : Db) (s : StoreName) (l : List JRecord) :
    (db.setStore s l).syncQueue = db.syncQueue := by
  cases s <;> rfl

theorem setStore_failedQueue (db : Db) (s : StoreName) (l : List JRecord) :
    (db.setStore s l).failedQueue = db.failedQueue := by
  cases s <;> rfl

theorem setStore_nextQueueKey (db : Db) (s : StoreName) (l : List JRecord) :
    (db.setStore s l).nextQueueKey = db.nextQueueKey := by
  cases s <;> rfl

theorem store_setStore_self (db : Db) (s : StoreName) (l : List JRecord) :
    (db.setStore s l).store s = l := by
  cases s <;> rfl

/-- `handleSuccessfulPost` only touches record collections: the two queue
collections and the key generator are untouched. -/
theorem handleSuccessfulPost_queues (s : StoreName) (t : Int) (r : JRecord)
    (db : Db) :
    (handleSuccessfulPost s t r db).syncQueue = db.syncQueue ∧
    (handleSuccessfulPost s t r db).failedQueue = db.failedQueue ∧
    (handleSuccessfulPost s t r db).nextQueueKey = db.nextQueueKey := by
  unfold handleSuccessfulPost
  cases db.getByIdStore s t with
  | none => exact ⟨rfl, rfl, rfl⟩
  | some rec =>
      unfold Db.addToStore Db.deleteFromStore
      exact ⟨by rw [setStore_syncQueue, setStore_syncQueue],
             by rw [setStore_failedQueue, setStore_failedQueue],
             by rw [setStore_nextQueueKey, setStore_nextQueueKey]⟩

/-- On the success channel `executeRequest` always succeeds and only touches
record collections. -/
theorem executeRequest_ok_queues (req : QueuedRequest) (resp : JRecord)
    (db : Db) :
    ∃ db1, executeRequest req (HttpResult.success resp) db = ExecResult.ok db1 ∧
      db1.syncQueue = db.syncQueue ∧ db1.failedQueue = db.failedQueue ∧
      db1.nextQueueKey = db.nextQueueKey := by
  unfold executeRequest
  cases hm : req.method == Method.POST with
  | false => exact ⟨db, by simp [hm], rfl, rfl, rfl⟩
  | true =>
      cases ht : truthyTempId req.payload.tempId with
      | none => exact ⟨db, by simp [hm, ht], rfl, rfl, rfl⟩
      | some t =>
          cases hs : storeNameForUrl req.url with
          | none => exact ⟨db, by simp [hm, ht, hs], rfl, rfl, rfl⟩
          | some s =>
              refine ⟨handleSuccessfulPost s t resp db, by simp [hm, ht, hs], ?_, ?_, ?_⟩
              · exact (handleSuccessfulPost_queues s t resp db).1
              · exact (handleSuccessfulPost_queues s t resp db).2.1
              · exact (handleSuccessfulPost_queues s t resp db).2.2

theorem executeRequest_failure (req : QueuedRequest) (e : HttpError)
    (db : Db) :
    executeRequest req (HttpResult.failure e) db = ExecResult.err e := rfl

/-! Settled claims. -/

/-- C8: `checkNow` reports offline without probing when the local interface
is unavailable; otherwise it probes and reports reachable for any HTTP
response — any success and any error status other than 0 — while a
transport-level failure (status 0) is the only probe outcome reported
unreachable. -/
theorem c8_checkNow_classifies_reachability :
    (∀ probe : ProbeResult,
      checkNow false probe = { probed := false, reported := false }) ∧
    (checkNow true ProbeResult.ok = { probed := true, reported := true }) ∧
    (∀ stat : Int,
      (checkNow true (ProbeResult.httpError stat)).probed = true ∧
      (checkNow true (ProbeResult.httpError stat)).reported = decide (stat ≠ 0)) := by
  refine ⟨fun probe => rfl, rfl, fun stat => ⟨rfl, rfl⟩⟩

/-- C9: a snapshot request with no defined id is skipped by
`syncSingleRequest` — never executed (the outcome oracle is irrelevant), the
database is untouched — and the run proceeds to the remaining items exactly
as if the request were not there. -/
theorem c9_missing_id_skipped (req : QueuedRequest) (db : Db) (now : Nat)
    (api : QueuedRequest → HttpResult) (rest : List QueuedRequest)
    (h : req.id = none) :
    (∀ outcome : HttpResult,
      syncSingleRequest req outcome db now = SyncStepResult.skipped db) ∧
    runRequests api now (req :: rest) db = runRequests api now rest db := by
  have hskip : ∀ outcome : HttpResult,
      syncSingleRequest req outcome db now = SyncStepResult.skipped db := by
    intro outcome
    unfold syncSingleRequest
    rw [h]
    rfl
  refine ⟨hskip, ?_⟩
  conv_lhs => rw [runRequests]
  rw [hskip (api req)]

/-- Witness for C9 at a concrete id-less POST request. -/
theorem c9_missing_id_skipped_witness :
    syncSingleRequest
      { id := none, url := "/customers", method := Method.POST, payload := {} }
      (HttpResult.success {}) {} 0 =
      SyncStepResult.skipped {} :=
  (c9_missing_id_skipped
      { id := none, url := "/customers", method := Method.POST, payload := {} }
      {} 0 (fun _ => HttpResult.success {}) [] rfl).1 (HttpResult.success {})

theorem deleteFromFailedQueue_syncQueue (db : Db) (k : Int) :
    (db.deleteFromFailedQueue k).syncQueue = db.syncQueue := rfl

theorem deleteFromFailedQueue_nextQueueKey (db : Db) (k : Int) :
    (db.deleteFromFailedQueue k).nextQueueKey = db.nextQueueKey := rfl

theorem deleteFromFailedQueue_failedQueue (db : Db) (k : Int) :
    (db.deleteFromFailedQueue k).failedQueue =
      db.failedQueue.filter (fun f => !(f.id == some k)) := rfl

/-- Pending-queue, failed-queue and key-generator effect of an online
`addToQueue` call, by outcome of the immediate attempt. -/
theorem addToQueue_online_queues (request : QueuedRequest)
    (api : QueuedRequest → HttpResult) (db : Db) :
    (addToQueue request true api db).syncQueue =
      (match api request with
       | HttpResult.success _ => db.syncQueue
       | HttpResult.failure _ =>
           db.syncQueue ++ [{ request with id := some db.nextQueueKey }]) ∧
    (addToQueue request true api db).failedQueue = db.failedQueue ∧
    (addToQueue request true api db).nextQueueKey =
      (match api request with
       | HttpResult.success _ => db.nextQueueKey
       | HttpResult.failure _ => db.nextQueueKey + 1) := by
  unfold addToQueue
  cases happ : api request with
  | failure e =>
      rw [executeRequest_failure]
      exact ⟨rfl, rfl, rfl⟩
  | success resp =>
      obtain ⟨db1, he1, hs1, hf1, hk1⟩ := executeRequest_ok_queues request resp db
      rw [he1]
      exact ⟨hs1, hf1, hk1⟩

/-- C7: `retryFailedRequest` produces the same pending and failed collections
as the spec's two-step program (remove from failed, then a fresh
`addToQueue` with the same url, method and payload). -/
theorem c7_retryFailedRequest_refines_spec (request : FailedRequest)
    (online : Bool) (api : QueuedRequest → HttpResult) (db : Db) :
    (retryFailedRequest request online api db).syncQueue =
      (retryFailedRequestSpecProgram request online api db).syncQueue ∧
    (retryFailedRequest request online api db).failedQueue =
      (retryFailedRequestSpecProgram request online api db).failedQueue := by
  unfold retryFailedRequest retryFailedRequestSpecProgram
  cases online with
  | false =>
      unfold addToQueue enqueueRequest Db.addToSyncQueue Db.deleteFromFailedQueue
      exact ⟨rfl, rfl⟩
  | true =>
      constructor
      · rw [deleteFromFailedQueue_syncQueue,
            (addToQueue_online_queues _ api db).1,
            (addToQueue_online_queues _ api (db.deleteFromFailedQueue (request.id.getD 0))).1,
            deleteFromFailedQueue_syncQueue, deleteFromFailedQueue_nextQueueKey]
      · rw [deleteFromFailedQueue_failedQueue,
            (addToQueue_online_queues _ api db).2.1,
            (addToQueue_online_queues _ api (db.deleteFromFailedQueue (request.id.getD 0))).2.1,
            deleteFromFailedQueue_failedQueue]

/-- C6: when connectivity is unreachable, `addToQueue` performs no immediate
execution (its result does not depend on the HTTP oracle at all) and persists
exactly one durable pending entry; when reachable, the request is attempted
immediately, a success creates no pending entry, and a failure of the
immediate attempt persists exactly one pending entry. -/
theorem c6_addToQueue_offline_online (request : QueuedRequest)
    (api api2 : QueuedRequest → HttpResult) (db : Db) :
    (addToQueue request false api db = enqueueRequest request db) ∧
    (addToQueue request false api db = addToQueue request false api2 db) ∧
    ((addToQueue request false api db).syncQueue =
      db.syncQueue ++ [{ request with id := some db.nextQueueKey }]) ∧
    (∀ resp, api request = HttpResult.success resp →
      (addToQueue request true api db).syncQueue = db.syncQueue) ∧
    (∀ e, api request = HttpResult.failure e →
      (addToQueue request true api db).syncQueue =
        db.syncQueue ++ [{ request with id := some db.nextQueueKey }]) := by
  refine ⟨rfl, rfl, rfl, ?_, ?_⟩
  · intro resp h
    rw [(addToQueue_online_queues request api db).1, h]
  · intro e h
    rw [(addToQueue_online_queues request api db).1, h]

/-- Witness for C6: offline enqueue of the fixture request, and the two
online outcomes against the all-success and all-400 oracles. -/
theorem c6_addToQueue_offline_online_witness :
    ((addToQueue reqW1 false apiOkW dbW).syncQueue =
      dbW.syncQueue ++ [{ reqW1 with id := some dbW.nextQueueKey }]) ∧
    ((addToQueue reqW1 true apiOkW dbW).syncQueue = dbW.syncQueue) ∧
    ((addToQueue reqW1 true api400W dbW).syncQueue =
      dbW.syncQueue ++ [{ reqW1 with id := some dbW.nextQueueKey }]) :=
  ⟨(c6_addToQueue_offline_online reqW1 apiOkW apiOkW dbW).2.2.1,
   (c6_addToQueue_offline_online reqW1 apiOkW apiOkW dbW).2.2.2.1 {} rfl,
   (c6_addToQueue_offline_online reqW1 api400W api400W dbW).2.2.2.2
     { status := some 400, message := some "Bad Request" } rfl⟩

/-- The error message recorded on a failed request is never empty: either the
received message is kept when non-empty, or the fixed fallback text is used. -/
theorem errorMessageOrDefault_ne_empty (m : Option String) :
    errorMessageOrDefault m ≠ "" := by
  cases m with
  | none => decide
  | some s =>
      cases hse : s.isEmpty with
      | true => simp [errorMessageOrDefault, hse]
      | false =>
          have hred : errorMessageOrDefault (some s) =
              if s.isEmpty = true then "An unknown error occurred during sync."
              else s := rfl
          rw [hred, if_neg (by simp [hse])]
          intro heq
          rw [heq] at hse
          exact absurd hse (by decide)

/-- C4: a queued request whose execution fails with a status other than 0,
404 or 5xx is moved to the failed collection: the run continues, the entry
leaves the pending collection, and exactly one new failed entry appears
carrying the same url, method and payload plus a non-empty error string and
the failure timestamp. -/
theorem c4_client_error_moves_to_failed (req : QueuedRequest) (e : HttpError)
    (db : Db) (now : Nat) (s : Int) (rest : List QueuedRequest)
    (api : QueuedRequest → HttpResult)
    (hid : jsFalsyId req.id = false)
    (hs : e.status = some s) (h0 : s ≠ 0) (h404 : s ≠ 404) (h5 : s < 500)
    (happ : api req = HttpResult.failure e) :
    syncSingleRequest req (HttpResult.failure e) db now =
      SyncStepResult.continued
        ((db.addToFailedQueue (failedRequestOf req e now)).deleteFromSyncQueue
          (req.id.getD 0)) ∧
    (failedRequestOf req e now).url = req.url ∧
    (failedRequestOf req e now).method = req.method ∧
    (failedRequestOf req e now).payload = req.payload ∧
    (failedRequestOf req e now).error ≠ "" ∧
    (failedRequestOf req e now).timestamp = now ∧
    ((db.addToFailedQueue (failedRequestOf req e now)).deleteFromSyncQueue
        (req.id.getD 0)).failedQueue =
      db.failedQueue ++ [failedRequestOf req e now] ∧
    ((db.addToFailedQueue (failedRequestOf req e now)).deleteFromSyncQueue
        (req.id.getD 0)).syncQueue =
      db.syncQueue.filter (fun q => !(q.id == some (req.id.getD 0))) ∧
    runRequests api now (req :: rest) db =
      { db := (runRequests api now rest
          ((db.addToFailedQueue (failedRequestOf req e now)).deleteFromSyncQueue
            (req.id.getD 0))).db,
        trace := req :: (runRequests api now rest
          ((db.addToFailedQueue (failedRequestOf req e now)).deleteFromSyncQueue
            (req.id.getD 0))).trace,
        aborted := (runRequests api now rest
          ((db.addToFailedQueue (failedRequestOf req e now)).deleteFromSyncQueue
            (req.id.getD 0))).aborted } := by
  have h5' : ¬ (500 ≤ s) := by omega
  have hstep : syncSingleRequest req (HttpResult.failure e) db now =
      SyncStepResult.continued
        ((db.addToFailedQueue (failedRequestOf req e now)).deleteFromSyncQueue
          (req.id.getD 0)) := by
    unfold syncSingleRequest
    rw [executeRequest_failure]
    simp [hid, handleSyncError, hs, h0, h404, h5']
  refine ⟨hstep, rfl, rfl, rfl, errorMessageOrDefault_ne_empty e.message, rfl,
    rfl, rfl, ?_⟩
  conv_lhs => rw [runRequests]
  rw [happ, hstep]

/-- Witness for C4: the fixture POST request rejected with a 400 validation
error lands in the failed collection and leaves the pending queue. -/
theorem c4_client_error_moves_to_failed_witness :
    syncSingleRequest reqW1
        (HttpResult.failure { status := some 400, message := some "Bad Request" })
        dbW 5 =
      SyncStepResult.continued
        ((dbW.addToFailedQueue (failedRequestOf reqW1
            { status := some 400, message := some "Bad Request" } 5)).deleteFromSyncQueue
          (reqW1.id.getD 0)) :=
  (c4_client_error_moves_to_failed reqW1
    { status := some 400, message := some "Bad Request" } dbW 5 400 [] api400W
    (by decide) rfl (by decide) (by decide) (by decide) rfl).1

theorem store_deleteFromStore_self (db : Db) (s : StoreName) (k : Int) :
    (db.deleteFromStore s k).store s =
      (db.store s).filter (fun r => !recordHasKey k r) := by
  unfold Db.deleteFromStore
  rw [store_setStore_self]

theorem any_filter_not_key (l : List JRecord) (k : Int) :
    ((l.filter (fun r => !recordHasKey k r)).any (recordHasKey k)) = false := by
  rw [List.any_eq_false]
  intro r hr
  have hm := List.mem_filter.mp hr
  simpa using hm.2

/-- C3 counterexample, refuting the claim at two concrete inputs. First, a
queued DELETE for customer 7 that receives a 404 leaves the locally stored
customer record with key 7 in place (the claim says the target record is
removed for DELETE requests as well), even though the queue entry is
discarded. Second, a queued PUT to the sales URL `/api/SalesOrder/501` that
receives a 404 leaves the target sales record with key 501 in place (the
claim says it is removed) — the handler instead deletes the record with key
501 from the customers collection, the store its URL heuristic misroutes the
deletion to. -/
theorem c3_counterexample_404_wrong_pruning :
    (handleSyncError reqDel7 err404W dbDel7 5).db.customers.any
      (recordHasKey 7) = true ∧
    (handleSyncError reqDel7 err404W dbDel7 5).db.syncQueue = [] ∧
    (handleSyncError reqPutSale err404W dbSale501 5).db.sales.any
      (recordHasKey 501) = true ∧
    (handleSyncError reqPutSale err404W dbSale501 5).db.customers.any
      (recordHasKey 501) = false ∧
    (handleSyncError reqPutSale err404W dbSale501 5).db.failedQueue = [] ∧
    (handleSyncError reqPutSale err404W dbSale501 5).db.syncQueue = [] := by
  exact ⟨by decide, by decide, by decide, by decide, by decide, by decide⟩

/-- C3 (amended): on a 404, a queued PUT or PATCH deletes the record keyed
by the numeric identifier in the final URL segment from the products
collection when the URL contains "products", and otherwise from the
customers collection — which removes the target record for products- and
customers-targeted updates, while for sales- and purchases-targeted updates
the deletion is misrouted to the customers collection and the target record
is NOT removed (the sales and purchases collections are never touched by the
404 handler). A queued DELETE removes no local record. In every case the
queue entry is removed from the pending collection, nothing is added to the
failed collection, and the run continues with the next item. -/
theorem c3_amended_404_discards_and_prunes (req : QueuedRequest)
    (e : HttpError) (db : Db) (now : Nat) (k : Int)
    (hst : e.status = some 404)
    (hparse : jsNumberOfString (lastUrlSegment req.url) = some k) :
    ((req.method = Method.PUT ∨ req.method = Method.PATCH) →
      strIncludes req.url "products" = true →
      handleSyncError req e db now =
        SyncStepResult.continued
          ((db.deleteFromStore StoreName.products k).deleteFromSyncQueue
            (req.id.getD 0))) ∧
    ((req.method = Method.PUT ∨ req.method = Method.PATCH) →
      strIncludes req.url "products" = false →
      handleSyncError req e db now =
        SyncStepResult.continued
          ((db.deleteFromStore StoreName.customers k).deleteFromSyncQueue
            (req.id.getD 0))) ∧
    (∀ s : StoreName,
      (((db.deleteFromStore s k).store s).any (recordHasKey k)) = false) ∧
    (req.method = Method.DELETE →
      handleSyncError req e db now =
        SyncStepResult.continued (db.deleteFromSyncQueue (req.id.getD 0))) ∧
    (handleSyncError req e db now).db.sales = db.sales ∧
    (handleSyncError req e db now).db.purchases = db.purchases ∧
    (handleSyncError req e db now).db.failedQueue = db.failedQueue ∧
    (handleSyncError req e db now).db.syncQueue =
      db.syncQueue.filter (fun q => !(q.id == some (req.id.getD 0))) := by
  have hput : (req.method = Method.PUT ∨ req.method = Method.PATCH) →
      handleSyncError req e db now =
        SyncStepResult.continued
          ((db.deleteFromStore
              (if strIncludes req.url "products" then StoreName.products
               else StoreName.customers) k).deleteFromSyncQueue
            (req.id.getD 0)) := by
    intro hm
    have hmb : (req.method == Method.PUT || req.method == Method.PATCH) = true := by
      cases hm with
      | inl h => rw [h]; rfl
      | inr h => rw [h]; rfl
    simp [handleSyncError, hst, hmb, hparse]
  have hdel : req.method = Method.DELETE →
      handleSyncError req e db now =
        SyncStepResult.continued (db.deleteFromSyncQueue (req.id.getD 0)) := by
    intro hm
    simp [handleSyncError, hst, hm]
  have hpost : req.method = Method.POST →
      handleSyncError req e db now =
        SyncStepResult.continued (db.deleteFromSyncQueue (req.id.getD 0)) := by
    intro hm
    simp [handleSyncError, hst, hm]
  have hchar : ∃ db1 : Db,
      handleSyncError req e db now =
        SyncStepResult.continued (db1.deleteFromSyncQueue (req.id.getD 0)) ∧
      (db1 = db.deleteFromStore StoreName.products k ∨
       db1 = db.deleteFromStore StoreName.customers k ∨ db1 = db) := by
    cases hmm : req.method with
    | PUT =>
        cases hprod : strIncludes req.url "products" with
        | true =>
            exact ⟨db.deleteFromStore StoreName.products k,
              by simpa [hprod] using hput (Or.inl hmm), Or.inl rfl⟩
        | false =>
            exact ⟨db.deleteFromStore StoreName.customers k,
              by simpa [hprod] using hput (Or.inl hmm), Or.inr (Or.inl rfl)⟩
    | PATCH =>
        cases hprod : strIncludes req.url "products" with
        | true =>
            exact ⟨db.deleteFromStore StoreName.products k,
              by simpa [hprod] using hput (Or.inr hmm), Or.inl rfl⟩
        | false =>
            exact ⟨db.deleteFromStore StoreName.customers k,
              by simpa [hprod] using hput (Or.inr hmm), Or.inr (Or.inl rfl)⟩
    | DELETE => exact ⟨db, hdel hmm, Or.inr (Or.inr rfl)⟩
    | POST => exact ⟨db, hpost hmm, Or.inr (Or.inr rfl)⟩
  obtain ⟨db1, hh, hcase⟩ := hchar
  refine ⟨fun hm hprod => ?_, fun hm hprod => ?_, fun s => ?_, hdel,
    ?_, ?_, ?_, ?_⟩
  · simpa [hprod] using hput hm
  · simpa [hprod] using hput hm
  · rw [store_deleteFromStore_self]
    exact any_filter_not_key (db.store s) k
  · rw [hh]
    rcases hcase with h | h | h <;> subst h <;> rfl
  · rw [hh]
    rcases hcase with h | h | h <;> subst h <;> rfl
  · rw [hh]
    rcases hcase with h | h | h <;> subst h <;> rfl
  · rw [hh]
    rcases hcase with h | h | h <;> subst h <;> rfl

/-- Witness for the amended C3: the fixture PUT to customer 7 receiving a
404 prunes the customers record keyed by the trailing URL segment together
with the queue entry. -/
theorem c3_amended_404_discards_and_prunes_witness :
    handleSyncError reqW2 err404W dbPut7 5 =
      SyncStepResult.continued
        ((dbPut7.deleteFromStore StoreName.customers 7).deleteFromSyncQueue
          (reqW2.id.getD 0)) :=
  (c3_amended_404_discards_and_prunes reqW2 err404W dbPut7 5 7 rfl
      (by decide)).2.1 (Or.inl rfl) (by decide)

theorem store_addToStore_self (db : Db) (s : StoreName) (r : JRecord) :
    (db.addToStore s r).store s = db.store s ++ [r] := by
  unfold Db.addToStore
  rw [store_setStore_self]

/-- C5: a queued POST carrying a truthy temp id whose URL names a known
resource reconciles on success: when the temp-keyed placeholder exists, it is
deleted and exactly one record keyed by the server-returned id is added
(built for sales by normalizing the response: id from `order_id`, item list
moved from `orderItems` to `order_items`); when no placeholder exists, the
response is discarded and the store is unchanged. -/
theorem c5_post_tempid_reconciliation (req : QueuedRequest) (resp : JRecord)
    (db : Db) (s : StoreName) (tid n : Int)
    (hm : req.method = Method.POST)
    (ht : truthyTempId req.payload.tempId = some tid)
    (hs : storeNameForUrl req.url = some s)
    (hkey : recordHasKey n (normalizeServerRecordForStore s resp) = true)
    (hne : tid ≠ n)
    (hfresh : (db.store s).countP (recordHasKey n) = 0) :
    executeRequest req (HttpResult.success resp) db =
      ExecResult.ok (handleSuccessfulPost s tid resp db) ∧
    ((db.getByIdStore s tid).isSome = true →
      (((handleSuccessfulPost s tid resp db).store s).any (recordHasKey tid))
        = false ∧
      (((handleSuccessfulPost s tid resp db).store s).countP (recordHasKey n))
        = 1) ∧
    (db.getByIdStore s tid = none → handleSuccessfulPost s tid resp db = db) ∧
    (∀ m : Int, resp.order_id = some (JVal.num m) →
      (normalizeServerRecordForStore StoreName.sales resp).id
        = some (JVal.num m)) ∧
    (∀ items : List Item,
      resp.orderItems = some items → resp.order_items = none →
      (normalizeServerRecordForStore StoreName.sales resp).order_items
          = some items ∧
      (normalizeServerRecordForStore StoreName.sales resp).orderItems
          = none) := by
  have hNid : (normalizeServerRecordForStore s resp).id = some (JVal.num n) := by
    have := hkey
    unfold recordHasKey at this
    exact beq_iff_eq.mp this
  have hNtid : recordHasKey tid (normalizeServerRecordForStore s resp) = false := by
    unfold recordHasKey
    rw [hNid]
    simp
    omega
  refine ⟨?_, ?_, ?_, ?_, ?_⟩
  · unfold executeRequest
    simp [hm, ht, hs]
  · intro hpresent
    obtain ⟨rec, hrec⟩ := Option.isSome_iff_exists.mp hpresent
    unfold handleSuccessfulPost
    rw [hrec]
    rw [store_addToStore_self, store_deleteFromStore_self]
    constructor
    · rw [List.any_append]
      rw [any_filter_not_key]
      simp [hNtid]
    · rw [List.countP_append]
      have hzero : ((db.store s).filter
          (fun r => !recordHasKey tid r)).countP (recordHasKey n) = 0 := by
        rw [List.countP_eq_zero] at hfresh ⊢
        intro a ha
        exact hfresh a (List.mem_filter.mp ha).1
      rw [hzero]
      simp [List.countP_cons, hkey]
  · intro habsent
    unfold handleSuccessfulPost
    rw [habsent]
  · intro m hm'
    unfold normalizeServerRecordForStore
    simp [jsCoalesce, hm']
    split <;> rfl
  · intro items hoi hni
    unfold normalizeServerRecordForStore
    simp [jsCoalesce, hoi, hni]

/-- Witness for C5: the offline-created sale with temp id -3, answered by a
SalesOrder DTO carrying order_id 501, ends with the placeholder gone and one
record keyed 501 in the sales store. -/
theorem c5_post_tempid_reconciliation_witness :
    (((handleSuccessfulPost StoreName.sales (-3) respW dbSalesW).store
        StoreName.sales).any (recordHasKey (-3))) = false ∧
    (((handleSuccessfulPost StoreName.sales (-3) respW dbSalesW).store
        StoreName.sales).countP (recordHasKey 501)) = 1 :=
  (c5_post_tempid_reconciliation reqPostW respW dbSalesW StoreName.sales
      (-3) 501 rfl (by decide) (by decide) (by decide) (by decide)
      (by decide)).2.1 (by decide)

/-- C10: when `addToQueue` runs while reachable and the immediate attempt of
a POST carrying a truthy temp id on a recognized resource URL succeeds, the
reconciliation applied is exactly `handleSuccessfulPost` — the same function
the queue-processing path applies for the same request before deleting its
queue entry. -/
theorem c10_immediate_path_reconciles (req : QueuedRequest) (resp : JRecord)
    (db : Db) (s : StoreName) (tid : Int) (api : QueuedRequest → HttpResult)
    (now : Nat)
    (hm : req.method = Method.POST)
    (ht : truthyTempId req.payload.tempId = some tid)
    (hs : storeNameForUrl req.url = some s)
    (happ : api req = HttpResult.success resp) :
    addToQueue req true api db = handleSuccessfulPost s tid resp db ∧
    (∀ k : Int, jsFalsyId (some k) = false →
      syncSingleRequest { req with id := some k } (HttpResult.success resp)
          db now =
        SyncStepResult.continued
          ((handleSuccessfulPost s tid resp db).deleteFromSyncQueue k)) := by
  have hexec : ∀ req2 : QueuedRequest, req2.method = Method.POST →
      truthyTempId req2.payload.tempId = some tid →
      storeNameForUrl req2.url = some s →
      executeRequest req2 (HttpResult.success resp) db =
        ExecResult.ok (handleSuccessfulPost s tid resp db) := by
    intro req2 h1 h2 h3
    unfold executeRequest
    simp [h1, h2, h3]
  constructor
  · unfold addToQueue
    rw [if_pos rfl, happ, hexec req hm ht hs]
  · intro k hk
    unfold syncSingleRequest
    rw [hexec { req with id := some k } hm ht hs]
    simp [hk]

/-- Witness for C10: the immediate online path of the fixture sales POST
performs the placeholder reconciliation. -/
theorem c10_immediate_path_reconciles_witness :
    addToQueue reqPostW true apiSalesW dbSalesW =
      handleSuccessfulPost StoreName.sales (-3) respW dbSalesW :=
  (c10_immediate_path_reconciles reqPostW respW dbSalesW StoreName.sales
      (-3) apiSalesW 0 rfl (by decide) (by decide) rfl).1

theorem deleteFromStore_syncQueue (db : Db) (s : StoreName) (k : Int) :
    (db.deleteFromStore s k).syncQueue = db.syncQueue := by
  unfold Db.deleteFromStore
  rw [setStore_syncQueue]

/-- Handling one queue error only ever removes the handled request's own key
from the pending collection: the resulting pending collection is a filtered
version of the previous one, and the filter keeps every entry whose key
differs from the handled request's key. -/
theorem handleSyncError_syncQueue_filter (req : QueuedRequest) (e : HttpError)
    (db : Db) (now : Nat) :
    ∃ p, (handleSyncError req e db now).db.syncQueue = db.syncQueue.filter p ∧
      ∀ q : QueuedRequest,
        (q.id == some (req.id.getD 0)) = false → p q = true := by
  unfold handleSyncError
  split
  · exact ⟨fun _ => true, by show db.syncQueue = _; simp, fun q _ => rfl⟩
  · split
    · exact ⟨fun _ => true, by show db.syncQueue = _; simp, fun q _ => rfl⟩
    · split
      · refine ⟨fun q => !(q.id == some (req.id.getD 0)), ?_,
          fun q hq => by
            show (!(q.id == some (req.id.getD 0))) = true
            rw [hq]
            rfl⟩
        have hinner : ∀ db1 : Db, db1.syncQueue = db.syncQueue →
            (db1.deleteFromSyncQueue (req.id.getD 0)).syncQueue =
              db.syncQueue.filter (fun q => !(q.id == some (req.id.getD 0))) := by
          intro db1 h1
          show db1.syncQueue.filter _ = _
          rw [h1]
        apply hinner
        split
        · split
          · exact deleteFromStore_syncQueue db _ _
          · rfl
        · rfl
      · refine ⟨fun q => !(q.id == some (req.id.getD 0)), rfl,
          fun q hq => by
            show (!(q.id == some (req.id.getD 0))) = true
            rw [hq]
            rfl⟩

/-- One step of a processing run never reorders the pending collection: the
new pending collection is a filtered version of the old one, and every entry
keyed differently from the handled request survives the filter. -/
theorem syncSingleRequest_syncQueue_filter (req : QueuedRequest)
    (o : HttpResult) (db : Db) (now : Nat) :
    ∃ p, (syncSingleRequest req o db now).db.syncQueue = db.syncQueue.filter p ∧
      ∀ q : QueuedRequest,
        (q.id == some (req.id.getD 0)) = false → p q = true := by
  unfold syncSingleRequest
  split
  · exact ⟨fun _ => true, by show db.syncQueue = _; simp, fun q _ => rfl⟩
  · cases o with
    | failure e =>
        rw [executeRequest_failure]
        exact handleSyncError_syncQueue_filter req e db now
    | success resp =>
        obtain ⟨db1, he1, hs1, _, _⟩ := executeRequest_ok_queues req resp db
        rw [he1]
        refine ⟨fun q => !(q.id == some (req.id.getD 0)), ?_,
          fun q hq => by
            show (!(q.id == some (req.id.getD 0))) = true
            rw [hq]
            rfl⟩
        show db1.syncQueue.filter _ = _
        rw [hs1]

/-- A whole processing run only filters the pending collection, and the
filter keeps every entry whose key differs from all keys of the snapshot. -/
theorem runRequests_syncQueue_filter (api : QueuedRequest → HttpResult)
    (now : Nat) :
    ∀ (l : List QueuedRequest) (db : Db),
    ∃ p, (runRequests api now l db).db.syncQueue = db.syncQueue.filter p ∧
      ∀ q : QueuedRequest,
        (∀ r ∈ l, (q.id == some (r.id.getD 0)) = false) → p q = true := by
  intro l
  induction l with
  | nil =>
      intro db
      exact ⟨fun _ => true, by show db.syncQueue = _; simp, fun q _ => rfl⟩
  | cons r rest ih =>
      intro db
      obtain ⟨p1, hp1, hk1⟩ := syncSingleRequest_syncQueue_filter r (api r) db now
      cases hstep : syncSingleRequest r (api r) db now with
      | skipped db1 =>
          have hval : runRequests api now (r :: rest) db =
              runRequests api now rest db1 := by
            conv_lhs => rw [runRequests]
            rw [hstep]
          obtain ⟨p2, hp2, hk2⟩ := ih db1
          refine ⟨fun q => p2 q && p1 q, ?_, ?_⟩
          · have hdb1 : db1.syncQueue = db.syncQueue.filter p1 := by
              rw [← hp1, hstep]
              rfl
            rw [hval, hp2, hdb1, List.filter_filter]
          · intro q hq
            show (p2 q && p1 q) = true
            rw [hk2 q (fun r2 hr2 => hq r2 (List.mem_cons_of_mem r hr2)),
              hk1 q (hq r (List.mem_cons_self r rest))]
            rfl
      | continued db1 =>
          have hval : (runRequests api now (r :: rest) db).db =
              (runRequests api now rest db1).db := by
            conv_lhs => rw [runRequests]
            rw [hstep]
          obtain ⟨p2, hp2, hk2⟩ := ih db1
          refine ⟨fun q => p2 q && p1 q, ?_, ?_⟩
          · have hdb1 : db1.syncQueue = db.syncQueue.filter p1 := by
              rw [← hp1, hstep]
              rfl
            rw [hval, hp2, hdb1, List.filter_filter]
          · intro q hq
            show (p2 q && p1 q) = true
            rw [hk2 q (fun r2 hr2 => hq r2 (List.mem_cons_of_mem r hr2)),
              hk1 q (hq r (List.mem_cons_self r rest))]
            rfl
      | aborted db1 =>
          have hval : (runRequests api now (r :: rest) db).db = db1 := by
            conv_lhs => rw [runRequests]
            rw [hstep]
          refine ⟨p1, ?_, fun q hq => hk1 q (hq r (List.mem_cons_self r rest))⟩
          rw [hval]
          rw [← hp1, hstep]
          rfl

/-- Splitting a run over an appended snapshot: the run processes the first
part, and continues with the second part only when the first did not abort. -/
theorem runRequests_append (api : QueuedRequest → HttpResult) (now : Nat)
    (l1 l2 : List QueuedRequest) (db : Db) :
    runRequests api now (l1 ++ l2) db =
      (if (runRequests api now l1 db).aborted then runRequests api now l1 db
       else
        { db := (runRequests api now l2 (runRequests api now l1 db).db).db,
          trace := (runRequests api now l1 db).trace ++
            (runRequests api now l2 (runRequests api now l1 db).db).trace,
          aborted :=
            (runRequests api now l2 (runRequests api now l1 db).db).aborted }) := by
  induction l1 generalizing db with
  | nil => simp [runRequests]
  | cons r rest ih =>
      cases hstep : syncSingleRequest r (api r) db now with
      | skipped db1 =>
          have h1 : runRequests api now ((r :: rest) ++ l2) db =
              runRequests api now (rest ++ l2) db1 := by
            show runRequests api now (r :: (rest ++ l2)) db = _
            conv_lhs => rw [runRequests]
            rw [hstep]
          have h2 : runRequests api now (r :: rest) db =
              runRequests api now rest db1 := by
            conv_lhs => rw [runRequests]
            rw [hstep]
          rw [h1, h2, ih db1]
      | continued db1 =>
          have h1 : runRequests api now ((r :: rest) ++ l2) db =
              { db := (runRequests api now (rest ++ l2) db1).db,
                trace := r :: (runRequests api now (rest ++ l2) db1).trace,
                aborted := (runRequests api now (rest ++ l2) db1).aborted } := by
            show runRequests api now (r :: (rest ++ l2)) db = _
            conv_lhs => rw [runRequests]
            rw [hstep]
          have h2 : runRequests api now (r :: rest) db =
              { db := (runRequests api now rest db1).db,
                trace := r :: (runRequests api now rest db1).trace,
                aborted := (runRequests api now rest db1).aborted } := by
            conv_lhs => rw [runRequests]
            rw [hstep]
          rw [h1, h2, ih db1]
          cases hab : (runRequests api now rest db1).aborted with
          | true => simp [hab]
          | false => simp [hab]
      | aborted db1 =>
          have h1 : runRequests api now ((r :: rest) ++ l2) db =
              { db := db1, trace := [r], aborted := true } := by
            show runRequests api now (r :: (rest ++ l2)) db = _
            conv_lhs => rw [runRequests]
            rw [hstep]
          have h2 : runRequests api now (r :: rest) db =
              { db := db1, trace := [r], aborted := true } := by
            conv_lhs => rw [runRequests]
            rw [hstep]
          rw [h1, h2]
          simp

/-- A transport failure (status 0) or a server error (5xx) on an executed
request rethrows: the run is torn down and the database is untouched by the
failing step. -/
theorem syncSingleRequest_aborts (req : QueuedRequest) (e : HttpError)
    (db : Db) (now : Nat)
    (hid : jsFalsyId req.id = false)
    (hst : e.status = some 0 ∨ ∃ s, e.status = some s ∧ 500 ≤ s) :
    syncSingleRequest req (HttpResult.failure e) db now =
      SyncStepResult.aborted db := by
  unfold syncSingleRequest
  rw [executeRequest_failure]
  simp only [hid, Bool.false_eq_true, if_false]
  unfold handleSyncError
  cases hst with
  | inl h0 => rw [h0]; rfl
  | inr h5 =>
      obtain ⟨s, hs, h500⟩ := h5
      rw [hs]
      have hne0 : ((some s == some (0 : Int)) : Bool) = false := by
        simp
        omega
      rw [hne0]
      simp only [Bool.false_eq_true, if_false]
      rw [if_pos]
      simp
      omega

theorem sublist_filter_of_forall (L M : List QueuedRequest)
    (p : QueuedRequest → Bool) (h : L.Sublist M)
    (hp : ∀ q ∈ L, p q = true) : L.Sublist (M.filter p) := by
  have hL : L.filter p = L := List.filter_eq_self.mpr hp
  rw [← hL]
  exact h.filter p

/-- C2: when an executed queued request fails with a transport failure
(status 0) or a server error (5xx), the whole run aborts at that request:
the final state is exactly the state reached before the failing request (so
the failing step deleted nothing, added nothing to the failed collection, and
no later request was executed), and the failing request together with every
subsequent snapshot request is still in the pending collection, in original
order. -/
theorem c2_transport_or_server_error_aborts_run
    (api : QueuedRequest → HttpResult) (now : Nat) (db : Db)
    (pre post : List QueuedRequest) (r : QueuedRequest) (e : HttpError)
    (hsnap : db.syncQueue = pre ++ r :: post)
    (hpre : (runRequests api now pre db).aborted = false)
    (hid : jsFalsyId r.id = false)
    (happ : api r = HttpResult.failure e)
    (hstatus : e.status = some 0 ∨ ∃ s, e.status = some s ∧ 500 ≤ s)
    (hkeys : ∀ q ∈ r :: post, ∀ r2 ∈ pre,
      (q.id == some (r2.id.getD 0)) = false) :
    processQueueOnce api now db =
      { db := (runRequests api now pre db).db,
        trace := (runRequests api now pre db).trace ++ [r],
        aborted := true } ∧
    (r :: post).Sublist (runRequests api now pre db).db.syncQueue := by
  constructor
  · have habort : syncSingleRequest r (api r)
        (runRequests api now pre db).db now =
        SyncStepResult.aborted (runRequests api now pre db).db := by
      rw [happ]
      exact syncSingleRequest_aborts r e _ now hid hstatus
    have hrp : runRequests api now (r :: post) (runRequests api now pre db).db =
        { db := (runRequests api now pre db).db, trace := [r],
          aborted := true } := by
      conv_lhs => rw [runRequests]
      rw [habort]
    unfold processQueueOnce
    rw [hsnap, runRequests_append,
      if_neg (by rw [hpre]; exact Bool.false_ne_true), hrp]
  · obtain ⟨p, hp, hkp⟩ := runRequests_syncQueue_filter api now pre db
    rw [hp, hsnap]
    exact sublist_filter_of_forall (r :: post) (pre ++ r :: post) p
      (List.sublist_append_right pre (r :: post))
      (fun q hq => hkp q (hkeys q hq))

/-- Witness for C2: with the API unreachable (status 0), a run over the
fixture queue aborts at the first request, and both fixture requests are
still pending in order. -/
theorem c2_transport_or_server_error_aborts_run_witness :
    processQueueOnce apiDownW 0 dbW =
      { db := (runRequests apiDownW 0 [] dbW).db,
        trace := (runRequests apiDownW 0 [] dbW).trace ++ [reqW1],
        aborted := true } ∧
    (reqW1 :: [reqW2]).Sublist (runRequests apiDownW 0 [] dbW).db.syncQueue :=
  c2_transport_or_server_error_aborts_run apiDownW 0 dbW [] [reqW2] reqW1
    { status := some 0 } rfl rfl (by decide) rfl (Or.inl rfl)
    (by intro q hq r2 hr2; exact absurd hr2 (List.not_mem_nil r2))

theorem stepRun_idle (api : QueuedRequest → HttpResult) (s : EngineState)
    (h : s.phase = QueuePhase.idle) : stepRun api s = s := by
  unfold stepRun
  rw [h]

theorem iterateStep_idle (api : QueuedRequest → HttpResult) (n : Nat) :
    ∀ s : EngineState, s.phase = QueuePhase.idle → iterateStep api n s = s := by
  induction n with
  | zero => intro s h; rfl
  | succ m ih =>
      intro s h
      show iterateStep api m (stepRun api s) = s
      rw [stepRun_idle api s h]
      exact ih s h

/-- Driving an online run to completion with scheduler steps computes exactly
the sequential fold `runRequests` over the snapshot: the engine ends idle
with the fold's database, having appended the fold's trace. -/
theorem iterateStep_run (api : QueuedRequest → HttpResult)
    (l : List QueuedRequest) :
    ∀ s : EngineState, s.phase = QueuePhase.running l → s.rerun = false →
    iterateStep api (l.length + 1) s =
      { s with phase := QueuePhase.idle,
               db := (runRequests api s.now l s.db).db,
               trace := s.trace ++ (runRequests api s.now l s.db).trace } := by
  induction l with
  | nil =>
      intro s hp hr
      show stepRun api s = _
      unfold stepRun
      rw [hp]
      unfold finishRun
      rw [hr]
      simp [runRequests]
  | cons r rest ih =>
      intro s hp hr
      have hstep1 : iterateStep api ((r :: rest).length + 1) s =
          iterateStep api (rest.length + 1) (stepRun api s) := rfl
      cases hs : syncSingleRequest r (api r) s.db s.now with
      | skipped db1 =>
          have hstep : stepRun api s =
              { s with phase := QueuePhase.running rest, db := db1 } := by
            unfold stepRun
            simp only [hp]
            rw [hs]
          have hrun : runRequests api s.now (r :: rest) s.db =
              runRequests api s.now rest db1 := by
            conv_lhs => rw [runRequests]
            rw [hs]
          rw [hstep1, hstep,
            ih { s with phase := QueuePhase.running rest, db := db1 } rfl hr,
            hrun]
      | continued db1 =>
          have hstep : stepRun api s =
              { s with phase := QueuePhase.running rest, db := db1,
                       trace := s.trace ++ [r] } := by
            unfold stepRun
            simp only [hp]
            rw [hs]
          have hrun : runRequests api s.now (r :: rest) s.db =
              { db := (runRequests api s.now rest db1).db,
                trace := r :: (runRequests api s.now rest db1).trace,
                aborted := (runRequests api s.now rest db1).aborted } := by
            conv_lhs => rw [runRequests]
            rw [hs]
          rw [hstep1, hstep,
            ih { s with phase := QueuePhase.running rest, db := db1,
                        trace := s.trace ++ [r] } rfl hr,
            hrun]
          simp [List.append_assoc]
      | aborted db1 =>
          have hstep : stepRun api s =
              { s with phase := QueuePhase.idle, db := db1,
                       trace := s.trace ++ [r] } := by
            unfold stepRun
            simp only [hp]
            rw [hs]
            unfold finishRun
            simp [hr]
          have hrun : runRequests api s.now (r :: rest) s.db =
              { db := db1, trace := [r], aborted := true } := by
            conv_lhs => rw [runRequests]
            rw [hs]
          rw [hstep1, hstep,
            iterateStep_idle api (rest.length + 1) _ rfl, hrun]

/-- The requests a run executes form a subsequence of the snapshot: they are
executed in snapshot order, with no reordering and no duplication. -/
theorem runRequests_trace_sublist (api : QueuedRequest → HttpResult)
    (now : Nat) :
    ∀ (l : List QueuedRequest) (db : Db),
    (runRequests api now l db).trace.Sublist l := by
  intro l
  induction l with
  | nil => intro db; exact List.Sublist.refl []
  | cons r rest ih =>
      intro db
      cases hs : syncSingleRequest r (api r) db now with
      | skipped db1 =>
          have hval : (runRequests api now (r :: rest) db).trace =
              (runRequests api now rest db1).trace := by
            conv_lhs => rw [runRequests]
            rw [hs]
          rw [hval]
          exact List.Sublist.cons r (ih db1)
      | continued db1 =>
          have hval : (runRequests api now (r :: rest) db).trace =
              r :: (runRequests api now rest db1).trace := by
            conv_lhs => rw [runRequests]
            rw [hs]
          rw [hval]
          exact List.Sublist.cons₂ r (ih db1)
      | aborted db1 =>
          have hval : (runRequests api now (r :: rest) db).trace = [r] := by
            conv_lhs => rw [runRequests]
            rw [hs]
          rw [hval]
          exact List.Sublist.cons₂ r (List.nil_sublist rest)

/-- C1: the trigger/run discipline of `processQueue`. While a run is active,
a further trigger changes no state other than setting the rerun flag — it
never starts a second concurrent run. Driving the active run to completion
executes the snapshot strictly sequentially (the pure fold `runRequests`,
each request handled to completion before the next), the executed requests
being a subsequence of the snapshot in snapshot order; and a requested
follow-up run starts only at the completion step of the active run, over a
fresh snapshot. -/
theorem c1_processQueue_sequential_and_exclusive
    (api : QueuedRequest → HttpResult) (s : EngineState)
    (l : List QueuedRequest)
    (hphase : s.phase = QueuePhase.running l) (hrerun : s.rerun = false) :
    ((triggerProcessQueue s).phase = s.phase ∧
     (triggerProcessQueue s).db = s.db ∧
     (triggerProcessQueue s).trace = s.trace ∧
     (s.online = true → (triggerProcessQueue s).rerun = true)) ∧
    (iterateStep api (l.length + 1) s =
      { s with phase := QueuePhase.idle,
               db := (runRequests api s.now l s.db).db,
               trace := s.trace ++ (runRequests api s.now l s.db).trace }) ∧
    ((runRequests api s.now l s.db).trace.Sublist l) ∧
    (∀ s2 : EngineState, s2.phase = QueuePhase.running [] →
      s2.rerun = true → s2.online = true →
      stepRun api s2 =
        { s2 with phase := QueuePhase.running s2.db.syncQueue,
                  rerun := false }) := by
  refine ⟨?_, iterateStep_run api l s hphase hrerun,
    runRequests_trace_sublist api s.now l s.db, ?_⟩
  · cases ho : s.online with
    | false =>
        have htr : triggerProcessQueue s = s := by
          unfold triggerProcessQueue
          rw [ho]
          rfl
        rw [htr]
        exact ⟨rfl, rfl, rfl,
          fun h => absurd h Bool.false_ne_true⟩
    | true =>
        have htr : triggerProcessQueue s = { s with rerun := true } := by
          unfold triggerProcessQueue
          rw [ho, hphase]
          rfl
        rw [htr, hphase]
        exact ⟨rfl, rfl, rfl, fun _ => rfl⟩
  · intro s2 h2p h2r h2o
    unfold stepRun
    rw [h2p]
    unfold finishRun
    rw [h2r, h2o]
    rfl

/-- Witness for C1: driving the fixture one-item run to completion against
the all-success oracle ends idle with the fold's database and trace. -/
theorem c1_processQueue_sequential_and_exclusive_witness :
    iterateStep apiOkW 2 engW =
      { engW with phase := QueuePhase.idle,
                  db := (runRequests apiOkW engW.now [reqW1] engW.db).db,
                  trace := engW.trace ++
                    (runRequests apiOkW engW.now [reqW1] engW.db).trace } :=
  (c1_processQueue_sequential_and_exclusive apiOkW engW [reqW1]
    rfl rfl).2.1

end Kiosk
